import Mathlib

/-!
Verification development for the write-ahead-log allocator of
`src/dbcore/sm-log-alloc.cpp` (class `sm_log_alloc_mgr`).

The C++ source is shallowly embedded below.  Machine integers
(`uint64_t` offsets, counts) are modelled as `Nat`: all the quantities
involved are byte offsets or counters that the program only ever
increases, and no arithmetic in the translated fragments wraps.
The external collaborators (segment manager `sm_log_recover_mgr`,
ring buffer `window_buffer`, block/record layout from `sm-log-defs.h`)
are modelled from the interface contracts stated in the specification,
since their code is not part of this repository snapshot; each such
definition carries a doc comment saying so.
-/

/-- An LSN is a (segment number, byte offset) pair.  Mirrors the `LSN`
type used by `sm-log-alloc.cpp` through `sid->make_lsn(offset)`. -/
structure LSN where
  segnum : Nat
  offset : Nat
deriving DecidableEq, Repr

/-- Log record types, as far as this file needs them: a skip record
(`LOG_SKIP`) versus anything else. -/
inductive rec_type where
  | LOG_SKIP : rec_type
  | LOG_OTHER : rec_type
deriving DecidableEq, Repr

/-- Modelled from the spec: one record slot of a log block
(`sm-log-defs.h` is not under `src/`).  The block format clause gives a
skip record the fields `\x7b type = SKIP, next_lsn, payload_end \x7d`;
`discard` reads and writes exactly the `type` and `payload_end` fields
and copies whole slots, so those fields suffice. -/
structure log_record where
  rtype : rec_type
  next_lsn : LSN
  payload_end : Nat
deriving DecidableEq, Repr

/-- Modelled from the spec: `fill_skip_record(&r, next_lsn,
payload_bytes, false)` (declared outside `src/`) fills a slot with a
skip record pointing at `next_lsn` carrying `payload_bytes`. -/
def fill_skip_record (next_lsn : LSN) (payload_bytes : Nat) : log_record :=
  { rtype := rec_type.LOG_SKIP, next_lsn := next_lsn, payload_end := payload_bytes }

/-- A log block as `sm-log-alloc.cpp` manipulates it: header fields
`lsn`, `checksum`, `nrec`, and the record slots.  The slots are
modelled as a total function from slot index to record, standing for
the raw buffer memory the block points into. -/
structure log_block where
  lsn : LSN
  checksum : Nat
  nrec : Nat
  records : Nat → log_record

/-- One node of the lock-free block list: the `log_allocation` fields
`lsn_offset` and `next_lsn_offset`, plus the dead mark that
`remove_fast` sets.  Newest node first in the embedded list, matching
`peek_raw(0)` returning the most recently pushed node. -/
structure list_node where
  lsn_offset : Nat
  next_lsn_offset : Nat
  dead : Bool
deriving DecidableEq, Repr

/-- The allocation handed to producers: its LSN-offset range and the
block it points at in the log buffer. -/
structure log_allocation where
  lsn_offset : Nat
  next_lsn_offset : Nat
  block : log_block

/-- Frontier of the block list: `cur_lsn_offset()` returns
`_block_list.peek_raw(0)->next_lsn_offset`, i.e. the newest (possibly
dead) node's `next_lsn_offset`.  The list is primed non-empty by the
constructor; the `[]` case is unreachable and returns 0. -/
def curOf : List list_node → Nat
  | [] => 0
  | b :: _ => b.next_lsn_offset

/-- The `push_callback` step of `allocate` (lines 203-218): the
callback reads the predecessor `peek_raw(0)` and sets
`n->lsn_offset := prev->next_lsn_offset`,
`n->next_lsn_offset := lsn_offset + nbytes`; the node is pushed at the
head. -/
def push_node (blocks : List list_node) (nbytes : Nat) : List list_node :=
  { lsn_offset := curOf blocks, next_lsn_offset := curOf blocks + nbytes,
    dead := false } :: blocks

/-- `remove_fast(x)`: mark the node whose `lsn_offset` is `t` dead.
Lazy unlinking of dead runs is not modelled; it does not change the
set of live nodes nor any node's offsets. -/
def markDeadLsn (t : Nat) (l : List list_node) : List list_node :=
  l.map (fun n => if n.lsn_offset = t then { n with dead := true } else n)

/-- Offset of the last (oldest) live node visited by the daemon's scan
(lines 413-415): `oldest_offset` starts at `cur_offset` and is
overwritten by each live node's `lsn_offset`; iteration ends at the
oldest live node. -/
def last_live_lsn : List list_node → Option Nat
  | [] => none
  | b :: bs =>
    match last_live_lsn bs with
    | some v => some v
    | none => if b.dead then none else some b.lsn_offset

/-- The daemon's `oldest_offset` computation: the oldest live node's
`lsn_offset`, or `cur` when no live node exists. -/
def oldest_live (l : List list_node) (cur : Nat) : Nat :=
  (last_live_lsn l).getD cur

/- ------------------------------------------------------------------ -/
/- wait_for_durable (lines 87-99)                                      -/
/- ------------------------------------------------------------------ -/

/-- The loop of `sm_log_alloc_mgr::wait_for_durable(dlsn_offset)`
(lines 87-99).  `obs j` is the value `volatile_read(_durable_lsn_offset)`
returns at the loop's `j`-th check; the daemon owns that variable, so
the checks are modelled as an observation stream.  The first fuel
argument bounds the number of iterations.  The result is `some k` when
the loop exits at its `k`-th check (having taken the mutex, raised
`_waiting_for_durable`, kicked and waited `k` times), `none` when fuel
runs out (the loop has not yet exited). -/
def wait_for_durable : Nat → Nat → (Nat → Nat) → Option Nat
  | 0, _, _ => none
  | fuel + 1, target, obs =>
    if obs 0 < target then
      (wait_for_durable fuel target (fun i => obs (i + 1))).map (fun k => k + 1)
    else
      some 0

/- ------------------------------------------------------------------ -/
/- discard / release (lines 311-342)                                   -/
/- ------------------------------------------------------------------ -/

/-- The block rewrite done by `sm_log_alloc_mgr::discard` (lines
334-340): copy slot `nrec` to slot 0, zero that copy's `payload_end`,
set `nrec := 0`, recompute the checksum.  `full_checksum` is
`log_block::full_checksum()` (declared outside `src/`), modelled as a
function of the block's data fields (`lsn`, `nrec`, record slots). -/
def discard_block (full_checksum : LSN → Nat → (Nat → log_record) → Nat)
    (b : log_block) : log_block :=
  let r0 : log_record := { b.records b.nrec with payload_end := 0 }
  let recs : Nat → log_record := fun i => if i = 0 then r0 else b.records i
  { lsn := b.lsn, checksum := full_checksum b.lsn 0 recs, nrec := 0,
    records := recs }

/-- State shared between producers and the block list, as far as the
producer-side operations need it: the block list and the shutdown
flag (`push` fails only after shutdown). -/
structure AllocState where
  blocks : List list_node
  shutdown : Bool

/-- `sm_log_alloc_mgr::release(x)` (lines 311-326):
`_block_list.remove_fast(x)`.  The conditional daemon kick is modelled
separately by `kick_daemon`. -/
def sm_release (st : AllocState) (x : log_allocation) : AllocState :=
  { blocks := markDeadLsn x.lsn_offset st.blocks, shutdown := st.shutdown }

/-- `sm_log_alloc_mgr::discard(x)` (lines 328-342): rewrite the block
as an empty skip block, then `release(x)`.  Returns the state after
the release together with the allocation holding the rewritten
block. -/
def sm_discard (full_checksum : LSN → Nat → (Nat → log_record) → Nat)
    (st : AllocState) (x : log_allocation) : AllocState × log_allocation :=
  let x2 : log_allocation :=
    { lsn_offset := x.lsn_offset, next_lsn_offset := x.next_lsn_offset,
      block := discard_block full_checksum x.block }
  (sm_release st x2, x2)

/- ------------------------------------------------------------------ -/
/- Daemon kick/wait accounting (lines 456-459, 535-542)                -/
/- ------------------------------------------------------------------ -/

/-- The `_write_daemon_kick_count` / `_write_daemon_wait_count` pair,
both 0 at construction (lines 39-40).  All mutations happen under
`_write_daemon_mutex`. -/
structure KW where
  kick_count : Nat
  wait_count : Nat
deriving DecidableEq, Repr

/-- `sm_log_alloc_mgr::_kick_log_write_daemon` (lines 535-542):
increment the kick count and signal only when it trails the wait
count. -/
def kick_daemon (s : KW) : KW :=
  if s.kick_count < s.wait_count then
    { s with kick_count := s.kick_count + 1 }
  else s

/-- The daemon incrementing `_write_daemon_wait_count` just before
blocking on `_write_daemon_cond` (line 457). -/
def daemon_wait (s : KW) : KW :=
  { s with wait_count := s.wait_count + 1 }

/-- The two mutex-protected counter mutations that exist in the file:
a producer kick (from `release`, `wait_for_durable`,
`update_durable_mark`, `allocate` or the destructor) and the daemon's
pre-block increment. -/
inductive kw_op where
  | kick : kw_op
  | wait : kw_op
deriving DecidableEq, Repr

/-- Apply one counter mutation. -/
def kw_step (s : KW) : kw_op → KW
  | kw_op.kick => kick_daemon s
  | kw_op.wait => daemon_wait s

/-- Run a sequence of counter mutations from a given state. -/
def kw_run (s : KW) (ops : List kw_op) : KW :=
  ops.foldl kw_step s

/- ------------------------------------------------------------------ -/
/- Daemon timed durable-mark refresh (lines 383-393)                   -/
/- ------------------------------------------------------------------ -/

/-- Inputs the daemon's timed durable-mark refresh reads:
`_lm.get_durable_mark().offset()`, `_durable_lsn_offset`,
`_waiting_for_dmark`, and whether `DURABLE_MARK_TIMEOUT_NS` has
elapsed on the stopwatch. -/
structure RefreshIn where
  dmark_offset : Nat
  durable_lsn_offset : Nat
  waiting_for_dmark : Nat
  timeout : Bool
deriving DecidableEq, Repr

/-- What the refresh did: whether it called `update_dmark()` (advancing
the on-disk durable mark) and whether it broadcast
`_write_complete_cond`. -/
structure RefreshOut where
  updated : Bool
  broadcast : Bool
deriving DecidableEq, Repr

/-- The refresh step at the top of the daemon loop (lines 383-393):
`can_update := dmark_offset < _durable_lsn_offset`;
`want_update := dmark_offset < _waiting_for_dmark`;
if `can_update and (want_update or timeout)` then update the mark, and
broadcast only `if (want_update)`. -/
def daemon_refresh (i : RefreshIn) : RefreshOut :=
  let can_update : Bool := decide (i.dmark_offset < i.durable_lsn_offset)
  let want_update : Bool := decide (i.dmark_offset < i.waiting_for_dmark)
  if can_update && (want_update || i.timeout) then
    { updated := true, broadcast := want_update }
  else
    { updated := false, broadcast := false }

/- ------------------------------------------------------------------ -/
/- Segment descriptors and the allocate protocol (lines 159-309)       -/
/- ------------------------------------------------------------------ -/

/-- Modelled from the spec: the `segment_id` contract the allocator
uses from the segment manager (`sm-log-recover-mgr.h` is not under
`src/`): `segnum`, `start_offset`, `end_offset`, `byte_offset`, and
the mappings `buf_offset` / `make_lsn`. -/
structure segment_id where
  segnum : Nat
  start_offset : Nat
  end_offset : Nat
  byte_offset : Nat
deriving DecidableEq, Repr

/-- Modelled from the spec: `sid->buf_offset(lsn)` maps an LSN offset
inside the segment to its ring-buffer byte position; `byte_offset` is
the ring byte of `start_offset`. -/
def segment_id.buf_offset (sid : segment_id) (lsn_offset : Nat) : Nat :=
  sid.byte_offset + (lsn_offset - sid.start_offset)

/-- Modelled from the spec: `sid->make_lsn(offset)` stamps an offset
with the segment number. -/
def segment_id.make_lsn (sid : segment_id) (lsn_offset : Nat) : LSN :=
  { segnum := sid.segnum, offset := lsn_offset }

/-- Result of `sm_log_recover_mgr::assign_segment(begin, end)` as the
allocator consumes it (lines 240-270): the segment (none for the
inter-segment dead zone), whether the whole range fit (`full_size`),
and the LSN just past the block (`next_lsn`, target of the trailing
skip record). -/
structure assign_result where
  sid : Option segment_id
  full_size : Bool
  next_lsn : LSN

/-- Environment of one `allocate` call: the external collaborators it
consults.  `blockSize` is `log_block::size(nrec, payload_bytes)`
(declared outside `src/`); `assign_segment` is the segment manager's
mapping; `bufAvail t` tells whether `_logbuf.write_buf` succeeds at the
`t`-th buffer attempt (the ring frees up as the daemon flushes, so
availability is an observation stream); `initRecord` is the garbage
contents of the freshly reserved buffer slots; `full_checksum` as in
`discard_block`. -/
structure AllocEnv where
  blockSize : Nat → Nat → Nat
  assign_segment : Nat → Nat → assign_result
  bufAvail : Nat → Bool
  initRecord : Nat → log_record
  initChecksum : Nat
  full_checksum : LSN → Nat → (Nat → log_record) → Nat

/-- The `grab_buffer` retry loop of `allocate` (lines 272-292): attempt
`t`, `t+1`, ... until `write_buf` succeeds; each failed attempt raises
`_waiting_for_durable`, kicks the daemon and waits.  Returns the
attempt index that succeeded, `none` if fuel ran out. -/
def grab_buffer : Nat → (Nat → Bool) → Nat → Option Nat
  | 0, _, _ => none
  | fuel + 1, avail, t => if avail t then some t else grab_buffer fuel avail (t + 1)

/-- Outcome of one `start_over` iteration of `allocate`
(lines 214-308). -/
inductive attempt_result where
  | dead_zone (st : AllocState) (t : Nat) : attempt_result
  | filler (x : log_allocation) (st : AllocState) (t : Nat)
      (reserved : Nat) : attempt_result
  | success (x : log_allocation) (st : AllocState) (t : Nat) : attempt_result
  | shutdown_die : attempt_result
  | buf_stuck : attempt_result

/-- One `start_over` iteration of `sm_log_alloc_mgr::allocate`
(lines 214-308): push a node (fatal if the list is closed by
shutdown), ask the segment manager, drop the node and retry on a dead
zone, downgrade the request to an empty filler when it did not fit
(`tmp_nbytes := sid->end_offset - lsn_offset`, `tmp_nrec := 0`,
`tmp_payload_bytes := 0`), claim buffer space, populate the header and
the trailing skip record, then either return the allocation
(`full_size`) or `discard` the filler and retry.  `t` threads the
buffer-attempt clock. -/
def allocate_attempt (env : AllocEnv) (nrec payload_bytes : Nat)
    (bufFuel : Nat) (st : AllocState) (t : Nat) : attempt_result :=
  if st.shutdown then attempt_result.shutdown_die else
  let nbytes := env.blockSize nrec payload_bytes
  let lsn0 := curOf st.blocks
  let blocks1 := push_node st.blocks nbytes
  let rval := env.assign_segment lsn0 (lsn0 + nbytes)
  match rval.sid with
  | none =>
      attempt_result.dead_zone
        { blocks := markDeadLsn lsn0 blocks1, shutdown := st.shutdown } t
  | some sid =>
    let lsn := sid.make_lsn lsn0
    let tmp_nbytes := if rval.full_size then nbytes else sid.end_offset - lsn0
    let tmp_nrec := if rval.full_size then nrec else 0
    let tmp_payload_bytes := if rval.full_size then payload_bytes else 0
    match grab_buffer bufFuel env.bufAvail t with
    | none => attempt_result.buf_stuck
    | some t2 =>
      let b : log_block :=
        { lsn := lsn, checksum := env.initChecksum, nrec := tmp_nrec,
          records := fun i =>
            if i = tmp_nrec then fill_skip_record rval.next_lsn tmp_payload_bytes
            else env.initRecord i }
      let x : log_allocation :=
        { lsn_offset := lsn0, next_lsn_offset := lsn0 + nbytes, block := b }
      if rval.full_size then
        attempt_result.success x { blocks := blocks1, shutdown := st.shutdown } (t2 + 1)
      else
        let p := sm_discard env.full_checksum
          { blocks := blocks1, shutdown := st.shutdown } x
        attempt_result.filler p.2 p.1 (t2 + 1) tmp_nbytes

/-- Overall outcome of `allocate`: a returned allocation, process
termination (`DIE_IF` after shutdown, or the `normal_return` guard),
or fuel exhaustion of one of its loops. -/
inductive alloc_outcome where
  | ok (x : log_allocation) (st : AllocState) : alloc_outcome
  | died : alloc_outcome
  | stuck : alloc_outcome

/-- The `start_over` loop of `allocate`: repeat attempts until one
succeeds.  Dead-zone and filler attempts `goto start_over`; the fuel
argument bounds the retries. -/
def allocate_loop (env : AllocEnv) (nrec payload_bytes bufFuel : Nat) :
    Nat → AllocState → Nat → alloc_outcome
  | 0, _, _ => alloc_outcome.stuck
  | fuel + 1, st, t =>
    match allocate_attempt env nrec payload_bytes bufFuel st t with
    | attempt_result.dead_zone st2 t2 =>
        allocate_loop env nrec payload_bytes bufFuel fuel st2 t2
    | attempt_result.filler _ st2 t2 _ =>
        allocate_loop env nrec payload_bytes bufFuel fuel st2 t2
    | attempt_result.success x st2 _ => alloc_outcome.ok x st2
    | attempt_result.shutdown_die => alloc_outcome.died
    | attempt_result.buf_stuck => alloc_outcome.stuck

/-- What claim C4 asserts of any allocation that `allocate` returns:
the block field points at a populated block whose header carries the
assigned LSN and the requested `nrec`, with a skip record of the
requested payload size in the trailing slot `records[nrec]`.  Process
termination (`died`) and non-termination within fuel (`stuck`) return
nothing. -/
def outcome_populated (nrec payload_bytes : Nat) : alloc_outcome → Prop
  | alloc_outcome.ok x _ =>
      x.block.lsn.offset = x.lsn_offset ∧
      x.block.nrec = nrec ∧
      (x.block.records nrec).rtype = rec_type.LOG_SKIP ∧
      (x.block.records nrec).payload_end = payload_bytes
  | alloc_outcome.died => True
  | alloc_outcome.stuck => True

/-- Block contents written on the short-fit path of `allocate` (lines
261-297): an empty filler block whose header has `nrec = 0` and whose
slot 0 holds a skip record of zero payload pointing at the segment
manager's `next_lsn`. -/
def filler_written_block (env : AllocEnv) (nrec payload_bytes : Nat)
    (st : AllocState) (sid : segment_id) : log_block :=
  { lsn := sid.make_lsn (curOf st.blocks), checksum := env.initChecksum,
    nrec := 0,
    records := fun i =>
      if i = 0 then
        fill_skip_record
          (env.assign_segment (curOf st.blocks)
            (curOf st.blocks + env.blockSize nrec payload_bytes)).next_lsn 0
      else env.initRecord i }

/-- The allocation as populated on the short-fit path before
`discard`. -/
def filler_alloc (env : AllocEnv) (nrec payload_bytes : Nat)
    (st : AllocState) (sid : segment_id) : log_allocation :=
  { lsn_offset := curOf st.blocks,
    next_lsn_offset := curOf st.blocks + env.blockSize nrec payload_bytes,
    block := filler_written_block env nrec payload_bytes st sid }

/- ------------------------------------------------------------------ -/
/- Writer daemon: write round and global state machine (lines 344-529) -/
/- ------------------------------------------------------------------ -/

/-- One iteration of the daemon's flush loop (lines 466-490) computing
where the next write ends: if the rest of the current segment is
inside the skip-record red zone (`end_offset < oldest_offset +
MIN_LOG_BLOCK_SIZE`), cross to segment `(segnum+1) % NUM_LOG_SEGMENTS`
and end at its `start_offset`; otherwise write up to `oldest_offset`
within the current segment. -/
structure write_round where
  new_sid : segment_id
  new_offset : Nat
  new_byte : Nat

/-- The `new_sid` / `new_offset` / `new_byte` computation of the flush
loop (lines 467-490).  `N` is `NUM_LOG_SEGMENTS` and `MIN` is
`MIN_LOG_BLOCK_SIZE` (constants defined outside `src/`); `segs` is the
segment table `_lm.get_segment`. -/
def daemon_write_round (N MIN : Nat) (segs : Nat → segment_id)
    (durable_sid : segment_id) (oldest_offset : Nat) : write_round :=
  if durable_sid.end_offset < oldest_offset + MIN then
    let ns := segs ((durable_sid.segnum + 1) % N)
    { new_sid := ns, new_offset := ns.start_offset, new_byte := ns.byte_offset }
  else
    { new_sid := durable_sid, new_offset := oldest_offset,
      new_byte := durable_sid.buf_offset oldest_offset }

/-- Shared state of the allocator as the durability claims see it: the
block list and the published durable watermark
`_durable_lsn_offset`. -/
structure LogState where
  blocks : List list_node
  durable : Nat

/-- `cur_lsn_offset()` of a state. -/
def LogState.cur (s : LogState) : Nat := curOf s.blocks

/-- The operations of `sm-log-alloc.cpp` that touch the block list or
the durable watermark, as a step relation:
`push` is `allocate`'s `push_callback`; `remove_fast` is
`release`/`discard` marking a node dead; `flush` is one publish of
`_durable_lsn_offset := new_offset` by the daemon's flush loop
(lines 516-526).  The `flush` constructor carries the loop's guard
(line 466) and the segment-geometry facts the daemon relies on, which
come from the external segment manager: the durable offset sits at
least `MIN_LOG_BLOCK_SIZE` before its segment's nominal end, the
successor segment starts inside the last `MIN_LOG_BLOCK_SIZE` bytes of
the current one (the red zone), and a red-zone crossing only happens
once the successor segment containing `oldest_offset` is installed
(the invariant stated in the comment at lines 471-480). -/
inductive log_step : LogState → LogState → Prop where
  | push (s : LogState) (nbytes : Nat) (hne : s.blocks ≠ []) :
      log_step s { blocks := push_node s.blocks nbytes, durable := s.durable }
  | remove_fast (s : LogState) (t : Nat) :
      log_step s { blocks := markDeadLsn t s.blocks, durable := s.durable }
  | flush (s : LogState) (N MIN : Nat) (segs : Nat → segment_id)
      (durable_sid : segment_id)
      (hlt : s.durable < oldest_live s.blocks s.cur)
      (hseg : s.durable + MIN ≤ durable_sid.end_offset)
      (htrue : durable_sid.end_offset <
        (segs ((durable_sid.segnum + 1) % N)).start_offset + MIN)
      (hred : durable_sid.end_offset < oldest_live s.blocks s.cur + MIN →
        (segs ((durable_sid.segnum + 1) % N)).start_offset ≤
          oldest_live s.blocks s.cur) :
      log_step s { blocks := s.blocks,
                   durable := (daemon_write_round N MIN segs durable_sid
                     (oldest_live s.blocks s.cur)).new_offset }

/-- State invariant of the shared state: the block list is primed
non-empty; every node's range is well-formed and below the frontier;
the list is newest-first (non-increasing `lsn_offset`); and the
durable watermark is at most the frontier and at most every live
node's start (spec invariant I3). -/
def LogInv (s : LogState) : Prop :=
  s.blocks ≠ [] ∧
  (∀ n ∈ s.blocks, n.lsn_offset ≤ n.next_lsn_offset) ∧
  (∀ n ∈ s.blocks, n.next_lsn_offset ≤ s.cur) ∧
  List.Pairwise (fun a b => b.lsn_offset ≤ a.lsn_offset) s.blocks ∧
  s.durable ≤ s.cur ∧
  (∀ n ∈ s.blocks, n.dead = false → s.durable ≤ n.lsn_offset)

/-- Concrete environment used by witnesses: one segment of 1000 bytes,
always-available buffer, a toy block-size formula and checksum. -/
def envEx : AllocEnv :=
  { blockSize := fun nrec payload_bytes => 64 + 16 * nrec + payload_bytes,
    assign_segment := fun _ e =>
      { sid := some { segnum := 0, start_offset := 0, end_offset := 1000,
                      byte_offset := 0 },
        full_size := decide (e ≤ 1000),
        next_lsn := { segnum := 0, offset := e } },
    bufAvail := fun _ => true,
    initRecord := fun _ =>
      { rtype := rec_type.LOG_OTHER, next_lsn := { segnum := 0, offset := 0 },
        payload_end := 0 },
    initChecksum := 0,
    full_checksum := fun l n _ => l.offset + n }

/-- Concrete environment used by witnesses: segment ends at offset 100
so that a 128-byte request does not fit (`full_size = false`). -/
def envShort : AllocEnv :=
  { blockSize := fun _ _ => 128,
    assign_segment := fun _ e =>
      { sid := some { segnum := 0, start_offset := 0, end_offset := 100,
                      byte_offset := 0 },
        full_size := decide (e ≤ 100),
        next_lsn := { segnum := 0, offset := e } },
    bufAvail := fun _ => true,
    initRecord := fun _ =>
      { rtype := rec_type.LOG_OTHER, next_lsn := { segnum := 0, offset := 0 },
        payload_end := 0 },
    initChecksum := 0,
    full_checksum := fun l n _ => l.offset + n }

/-- Concrete segment descriptor used by witnesses: the segment of
`envShort`. -/
def sidShort : segment_id :=
  { segnum := 0, start_offset := 0, end_offset := 100, byte_offset := 0 }

/-- Concrete allocation used by witnesses: a one-slot block whose
trailing slot (slot `nrec = 0`) is a skip record. -/
def xEx : log_allocation :=
  { lsn_offset := 0, next_lsn_offset := 8,
    block :=
      { lsn := { segnum := 0, offset := 0 }, checksum := 7, nrec := 0,
        records := fun _ =>
          { rtype := rec_type.LOG_SKIP, next_lsn := { segnum := 0, offset := 8 },
            payload_end := 3 } } }

/-- Concrete producer-side state used by witnesses: the primed list
with its dead sentinel at offset 0. -/
def stEx : AllocState :=
  { blocks := [{ lsn_offset := 0, next_lsn_offset := 0, dead := true }],
    shutdown := false }

/-- Concrete shared state used by witnesses: the primed block list and
durable watermark 0, matching the constructor (lines 36-49). -/
def initLogState : LogState :=
  { blocks := [{ lsn_offset := 0, next_lsn_offset := 0, dead := true }],
    durable := 0 }

/- ------------------------------------------------------------------ -/
/- Helper lemmas                                                       -/
/- ------------------------------------------------------------------ -/

theorem wait_for_durable_some (fuel : Nat) :
    ∀ (target : Nat) (obs : Nat → Nat) (k : Nat),
      wait_for_durable fuel target obs = some k →
      target ≤ obs k ∧ ∀ j, j < k → obs j < target := by
  induction fuel with
  | zero => intro target obs k h; simp [wait_for_durable] at h
  | succ n ih =>
    intro target obs k h
    by_cases h0 : obs 0 < target
    · simp only [wait_for_durable, if_pos h0, Option.map_eq_some'] at h
      obtain ⟨k2, hk2, rfl⟩ := h
      obtain ⟨h1, h2⟩ := ih target (fun i => obs (i + 1)) k2 hk2
      refine ⟨h1, ?_⟩
      intro j hj
      cases j with
      | zero => exact h0
      | succ j2 => exact h2 j2 (by omega)
    · simp only [wait_for_durable, if_neg h0] at h
      cases h
      exact ⟨Nat.le_of_not_lt h0, by omega⟩

theorem kw_step_preserves (s : KW) (op : kw_op)
    (h : s.kick_count ≤ s.wait_count) :
    (kw_step s op).kick_count ≤ (kw_step s op).wait_count := by
  cases op with
  | kick =>
    by_cases hlt : s.kick_count < s.wait_count
    · simp [kw_step, kick_daemon, hlt]; omega
    · simp [kw_step, kick_daemon, hlt, h]
  | wait => simp [kw_step, daemon_wait]; omega

theorem kw_run_preserves (ops : List kw_op) :
    ∀ s : KW, s.kick_count ≤ s.wait_count →
      (kw_run s ops).kick_count ≤ (kw_run s ops).wait_count := by
  induction ops with
  | nil => intro s h; simpa [kw_run] using h
  | cons op ops ih =>
    intro s h
    simpa [kw_run] using ih (kw_step s op) (kw_step_preserves s op h)

theorem curOf_push (l : List list_node) (nbytes : Nat) :
    curOf (push_node l nbytes) = curOf l + nbytes := rfl

theorem markDead_f_lsn (t : Nat) (n : list_node) :
    (if n.lsn_offset = t then { n with dead := true } else n).lsn_offset =
      n.lsn_offset := by
  by_cases h : n.lsn_offset = t <;> simp [h]

theorem markDead_f_next (t : Nat) (n : list_node) :
    (if n.lsn_offset = t then { n with dead := true } else n).next_lsn_offset =
      n.next_lsn_offset := by
  by_cases h : n.lsn_offset = t <;> simp [h]

theorem curOf_markDeadLsn (t : Nat) (l : List list_node) :
    curOf (markDeadLsn t l) = curOf l := by
  cases l with
  | nil => rfl
  | cons b bs => simpa [markDeadLsn, curOf] using markDead_f_next t b

theorem markDeadLsn_ne_nil (t : Nat) (l : List list_node) (h : l ≠ []) :
    markDeadLsn t l ≠ [] := by
  simpa [markDeadLsn] using h

theorem mem_markDeadLsn (t : Nat) (l : List list_node) (n : list_node)
    (h : n ∈ markDeadLsn t l) :
    ∃ m ∈ l, n.lsn_offset = m.lsn_offset ∧
      n.next_lsn_offset = m.next_lsn_offset ∧
      (n.dead = false → m.dead = false) := by
  simp only [markDeadLsn, List.mem_map] at h
  obtain ⟨m, hm, hfm⟩ := h
  by_cases hmt : m.lsn_offset = t
  · refine ⟨m, hm, ?_, ?_, ?_⟩ <;> rw [← hfm] <;> simp [hmt]
  · refine ⟨m, hm, ?_, ?_, ?_⟩ <;> rw [← hfm] <;> simp [hmt]

theorem pairwise_markDeadLsn (t : Nat) (l : List list_node)
    (h : List.Pairwise (fun a b => b.lsn_offset ≤ a.lsn_offset) l) :
    List.Pairwise (fun a b => b.lsn_offset ≤ a.lsn_offset) (markDeadLsn t l) := by
  rw [markDeadLsn, List.pairwise_map]
  refine h.imp ?_
  intro a b hab
  simpa [markDead_f_lsn] using hab

theorem last_live_lsn_mem (l : List list_node) :
    ∀ v, last_live_lsn l = some v →
      ∃ m ∈ l, m.dead = false ∧ m.lsn_offset = v := by
  induction l with
  | nil => intro v h; simp [last_live_lsn] at h
  | cons b bs ih =>
    intro v h
    simp only [last_live_lsn] at h
    cases hbs : last_live_lsn bs with
    | some w =>
      simp only [hbs, Option.some.injEq] at h
      subst h
      obtain ⟨m, hm, hd, hl⟩ := ih w hbs
      exact ⟨m, List.mem_cons_of_mem b hm, hd, hl⟩
    | none =>
      simp only [hbs] at h
      by_cases hd : b.dead = true
      · simp [hd] at h
      · simp only [Bool.not_eq_true] at hd
        simp only [hd, Bool.false_eq_true, if_false, Option.some.injEq] at h
        exact ⟨b, List.mem_cons_self b bs, hd, h⟩

theorem last_live_lsn_isSome (l : List list_node) (n : list_node)
    (hn : n ∈ l) (hd : n.dead = false) :
    (last_live_lsn l).isSome = true := by
  induction l with
  | nil => simp at hn
  | cons b bs ih =>
    simp only [last_live_lsn]
    cases hbs : last_live_lsn bs with
    | some w => simp
    | none =>
      rcases List.mem_cons.mp hn with h | h
      · subst h; simp [hd]
      · have := ih h
        rw [hbs] at this
        simp at this

theorem oldest_live_le (l : List list_node) (c : Nat) (n : list_node)
    (hp : List.Pairwise (fun a b => b.lsn_offset ≤ a.lsn_offset) l)
    (hn : n ∈ l) (hd : n.dead = false) :
    oldest_live l c ≤ n.lsn_offset := by
  induction l with
  | nil => simp at hn
  | cons b bs ih =>
    obtain ⟨hb, hbs⟩ := List.pairwise_cons.mp hp
    rcases List.mem_cons.mp hn with h | h
    · subst h
      unfold oldest_live last_live_lsn
      cases hlast : last_live_lsn bs with
      | some w =>
        obtain ⟨m, hm, _, hl⟩ := last_live_lsn_mem bs w hlast
        simpa using hl ▸ hb m hm
      | none => simp [hd]
    · have hsome := last_live_lsn_isSome bs n h hd
      cases hlast : last_live_lsn bs with
      | none => rw [hlast] at hsome; simp at hsome
      | some w =>
        have hrec : oldest_live bs c ≤ n.lsn_offset := ih hbs h
        unfold oldest_live last_live_lsn
        rw [hlast]
        simpa [oldest_live, hlast] using hrec

theorem oldest_live_cases (l : List list_node) (c : Nat) :
    oldest_live l c = c ∨
      ∃ m ∈ l, m.dead = false ∧ m.lsn_offset = oldest_live l c := by
  unfold oldest_live
  cases h : last_live_lsn l with
  | none => left; rfl
  | some v => right; simpa using last_live_lsn_mem l v h

theorem oldest_le_cur (s : LogState) (h : LogInv s) :
    oldest_live s.blocks s.cur ≤ s.cur := by
  obtain ⟨-, hwf, hcur, -, -, -⟩ := h
  rcases oldest_live_cases s.blocks s.cur with h | ⟨m, hm, -, hl⟩
  · exact h.le
  · rw [← hl]
    exact le_trans (hwf m hm) (hcur m hm)

theorem durable_le_oldest (s : LogState) (h : LogInv s) :
    s.durable ≤ oldest_live s.blocks s.cur := by
  obtain ⟨-, -, -, -, hd, hlb⟩ := h
  rcases oldest_live_cases s.blocks s.cur with h | ⟨m, hm, hdead, hl⟩
  · rw [h]; exact hd
  · rw [← hl]; exact hlb m hm hdead

theorem flush_offset_bounds (N MIN : Nat) (segs : Nat → segment_id)
    (durable_sid : segment_id) (durable oldest : Nat)
    (hlt : durable < oldest)
    (hseg : durable + MIN ≤ durable_sid.end_offset)
    (htrue : durable_sid.end_offset <
      (segs ((durable_sid.segnum + 1) % N)).start_offset + MIN)
    (hred : durable_sid.end_offset < oldest + MIN →
      (segs ((durable_sid.segnum + 1) % N)).start_offset ≤ oldest) :
    durable < (daemon_write_round N MIN segs durable_sid oldest).new_offset ∧
      (daemon_write_round N MIN segs durable_sid oldest).new_offset ≤ oldest := by
  unfold daemon_write_round
  by_cases hcross : durable_sid.end_offset < oldest + MIN
  · simp only [if_pos hcross]
    exact ⟨by omega, hred hcross⟩
  · simp only [if_neg hcross]
    exact ⟨hlt, le_refl oldest⟩

theorem LogInv_push (s : LogState) (nbytes : Nat) (h : LogInv s) :
    LogInv { blocks := push_node s.blocks nbytes, durable := s.durable } := by
  obtain ⟨hne, hwf, hcur, hpw, hd, hlb⟩ := h
  have hcur2 : LogState.cur { blocks := push_node s.blocks nbytes,
                              durable := s.durable } = s.cur + nbytes := rfl
  refine ⟨by simp [push_node], ?_, ?_, ?_, ?_, ?_⟩
  · intro n hn
    rcases List.mem_cons.mp hn with h | h
    · subst h; simp
    · exact hwf n h
  · intro n hn
    rw [hcur2]
    rcases List.mem_cons.mp hn with h | h
    · subst h; simp [LogState.cur]
    · exact le_trans (hcur n h) (Nat.le_add_right _ _)
  · refine List.pairwise_cons.mpr ⟨?_, hpw⟩
    intro m hm
    exact le_trans (hwf m hm) (hcur m hm)
  · rw [hcur2]; exact le_trans hd (Nat.le_add_right _ _)
  · intro n hn hdead
    rcases List.mem_cons.mp hn with h | h
    · subst h; exact hd
    · exact hlb n h hdead

theorem LogInv_remove (s : LogState) (t : Nat) (h : LogInv s) :
    LogInv { blocks := markDeadLsn t s.blocks, durable := s.durable } := by
  obtain ⟨hne, hwf, hcur, hpw, hd, hlb⟩ := h
  have hcur2 : LogState.cur { blocks := markDeadLsn t s.blocks,
                              durable := s.durable } = s.cur :=
    curOf_markDeadLsn t s.blocks
  refine ⟨markDeadLsn_ne_nil t s.blocks hne, ?_, ?_, ?_, ?_, ?_⟩
  · intro n hn
    obtain ⟨m, hm, hl, hx, -⟩ := mem_markDeadLsn t s.blocks n hn
    rw [hl, hx]; exact hwf m hm
  · intro n hn
    obtain ⟨m, hm, -, hx, -⟩ := mem_markDeadLsn t s.blocks n hn
    rw [hcur2, hx]; exact hcur m hm
  · exact pairwise_markDeadLsn t s.blocks hpw
  · rw [hcur2]; exact hd
  · intro n hn hdead
    obtain ⟨m, hm, hl, -, hdm⟩ := mem_markDeadLsn t s.blocks n hn
    rw [hl]; exact hlb m hm (hdm hdead)

theorem log_step_preserves (s s' : LogState) (hst : log_step s s')
    (h : LogInv s) : LogInv s' ∧ s.durable ≤ s'.durable := by
  cases hst with
  | push nbytes hne => exact ⟨LogInv_push s nbytes h, le_refl _⟩
  | remove_fast t => exact ⟨LogInv_remove s t h, le_refl _⟩
  | flush N MIN segs durable_sid hlt hseg htrue hred =>
    obtain ⟨hlo, hhi⟩ := flush_offset_bounds N MIN segs durable_sid s.durable
      (oldest_live s.blocks s.cur) hlt hseg htrue hred
    have hcur2 : LogState.cur { blocks := s.blocks,
                                durable := (daemon_write_round N MIN segs
                                  durable_sid (oldest_live s.blocks
                                    s.cur)).new_offset } = s.cur := rfl
    obtain ⟨hne, hwf, hcur, hpw, hd, hlb⟩ := h
    refine ⟨⟨hne, hwf, ?_, hpw, ?_, ?_⟩, le_of_lt hlo⟩
    · intro n hn; rw [hcur2]; exact hcur n hn
    · rw [hcur2]
      exact le_trans hhi (oldest_le_cur s ⟨hne, hwf, hcur, hpw, hd, hlb⟩)
    · intro n hn hdead
      exact le_trans hhi (oldest_live_le s.blocks s.cur n hpw hn hdead)

theorem log_step_publish_bounds (s s' : LogState) (hst : log_step s s')
    (h : LogInv s) :
    s.durable ≤ s'.durable ∧
      s'.durable ≤ oldest_live s.blocks s.cur ∧
      oldest_live s.blocks s.cur ≤ s.cur := by
  refine ⟨(log_step_preserves s s' hst h).2, ?_, oldest_le_cur s h⟩
  cases hst with
  | push nbytes hne => exact durable_le_oldest s h
  | remove_fast t => exact durable_le_oldest s h
  | flush N MIN segs durable_sid hlt hseg htrue hred =>
    exact (flush_offset_bounds N MIN segs durable_sid s.durable
      (oldest_live s.blocks s.cur) hlt hseg htrue hred).2

theorem log_reach (s0 s : LogState) (h0 : LogInv s0)
    (hr : Relation.ReflTransGen log_step s0 s) :
    LogInv s ∧ s0.durable ≤ s.durable := by
  induction hr with
  | refl => exact ⟨h0, le_refl _⟩
  | tail hab hbc ih =>
    obtain ⟨hIb, hd⟩ := ih
    obtain ⟨hIc, hd2⟩ := log_step_preserves _ _ hbc hIb
    exact ⟨hIc, le_trans hd hd2⟩

theorem allocate_attempt_success_populated (env : AllocEnv)
    (nrec payload_bytes bufFuel : Nat) (st : AllocState) (t : Nat)
    (x : log_allocation) (st2 : AllocState) (t2 : Nat)
    (h : allocate_attempt env nrec payload_bytes bufFuel st t =
      attempt_result.success x st2 t2) :
    x.block.lsn.offset = x.lsn_offset ∧ x.block.nrec = nrec ∧
      (x.block.records nrec).rtype = rec_type.LOG_SKIP ∧
      (x.block.records nrec).payload_end = payload_bytes := by
  simp only [allocate_attempt] at h
  split at h
  · exact attempt_result.noConfusion h
  · split at h
    · exact attempt_result.noConfusion h
    · split at h
      · exact attempt_result.noConfusion h
      · split at h
        · rename_i sid hsid t3 hgrab hfs
          injection h with h1 h2 h3
          subst h1
          simp [segment_id.make_lsn, fill_skip_record, hfs]
        · exact attempt_result.noConfusion h

/- ------------------------------------------------------------------ -/
/- Claim theorems                                                      -/
/- ------------------------------------------------------------------ -/

/-- Claim C1: for every target offset `X`, `wait_for_durable(X)`
returns only when `dur_lsn_offset() ≥ X`: if the loop exits at its
`k`-th read of `_durable_lsn_offset`, the value read there is at least
`X`, and every earlier read (each of which preceded a mutex
acquisition and a wait on `_write_complete_cond`) was below `X`. -/
theorem wait_for_durable_returns_only_when_durable (fuel target : Nat)
    (obs : Nat → Nat) (k : Nat)
    (h : wait_for_durable fuel target obs = some k) :
    target ≤ obs k ∧ ∀ j, j < k → obs j < target :=
  wait_for_durable_some fuel target obs k h

theorem wait_for_durable_returns_only_when_durable_witness :
    (wait_for_durable 3 5 (fun i => 3 * i) = some 2) ∧
      5 ≤ 3 * 2 ∧ 3 * 1 < 5 :=
  ⟨rfl,
   (wait_for_durable_returns_only_when_durable 3 5 (fun i => 3 * i) 2 rfl).1,
   (wait_for_durable_returns_only_when_durable 3 5 (fun i => 3 * i) 2 rfl).2
     1 (by decide)⟩

/-- Claim C8: `wait_for_durable` is idempotent in its target: once one
call with target `X` has returned (its final read `obs1 k` was at
least `X`), any later call whose first read is at least that value
finds `_durable_lsn_offset ≥ X` at the initial loop check and returns
immediately — `some 0`: zero mutex acquisitions and zero waits. -/
theorem wait_for_durable_idempotent (f1 target k : Nat) (obs1 : Nat → Nat)
    (h1 : wait_for_durable f1 target obs1 = some k) (f2 : Nat)
    (obs2 : Nat → Nat) (hmono : obs1 k ≤ obs2 0) :
    wait_for_durable (f2 + 1) target obs2 = some 0 := by
  have hge := (wait_for_durable_some f1 target obs1 k h1).1
  have h2 : ¬ obs2 0 < target := by omega
  simp [wait_for_durable, h2]

theorem wait_for_durable_idempotent_witness :
    (wait_for_durable 1 5 (fun _ => 7) = some 0 ∧ 7 ≤ 9) ∧
      wait_for_durable (0 + 1) 5 (fun _ => 9) = some 0 :=
  ⟨⟨rfl, by decide⟩,
   wait_for_durable_idempotent 1 5 0 (fun _ => 7) rfl 0 (fun _ => 9)
     (by decide)⟩

/-- Claim C9: the kick accounting never overtakes the wait accounting:
starting from the constructed state (both counters 0), after any
sequence of the two mutations that exist in the file —
`_kick_log_write_daemon` (increment `_write_daemon_kick_count` only
when it trails `_write_daemon_wait_count`) and the daemon's pre-block
increment of `_write_daemon_wait_count` — the kick count is at most
the wait count. -/
theorem kick_count_never_overtakes_wait_count (ops : List kw_op) :
    (kw_run { kick_count := 0, wait_count := 0 } ops).kick_count ≤
      (kw_run { kick_count := 0, wait_count := 0 } ops).wait_count :=
  kw_run_preserves ops { kick_count := 0, wait_count := 0 } (Nat.le_refl 0)

/-- Claim C7 counterexample: the claim says the daemon broadcasts
`_write_complete_cond` after every advance of the on-disk durable
mark.  With the on-disk mark 0 trailing `_durable_lsn_offset = 1`, no
thread waiting for a durable-mark advance (`_waiting_for_dmark = 0`),
and the 100 ms timer expired, the refresh advances the mark
(`updated = true`) yet does not broadcast: the broadcast at line 392
is guarded by `want_update`, not by the advance having happened. -/
theorem daemon_refresh_advance_without_broadcast :
    (daemon_refresh { dmark_offset := 0, durable_lsn_offset := 1,
                      waiting_for_dmark := 0, timeout := true }).updated
      = true ∧
    (daemon_refresh { dmark_offset := 0, durable_lsn_offset := 1,
                      waiting_for_dmark := 0, timeout := true }).broadcast
      = false :=
  ⟨rfl, rfl⟩

/-- Claim C7 amended: the daemon advances the on-disk durable mark
exactly when it trails `_durable_lsn_offset` and either the ≈100 ms
timeout elapsed or a thread is waiting for a durable-mark advance
beyond the on-disk mark; it broadcasts `_write_complete_cond` after
the advance exactly when such a thread is waiting (`want_update`) —
on a timeout-only advance it does not broadcast. -/
theorem daemon_refresh_broadcast_iff (i : RefreshIn) :
    ((daemon_refresh i).updated = true ↔
      i.dmark_offset < i.durable_lsn_offset ∧
        (i.dmark_offset < i.waiting_for_dmark ∨ i.timeout = true)) ∧
    ((daemon_refresh i).broadcast = true ↔
      (daemon_refresh i).updated = true ∧
        i.dmark_offset < i.waiting_for_dmark) := by
  unfold daemon_refresh
  by_cases h1 : i.dmark_offset < i.durable_lsn_offset <;>
    by_cases h2 : i.dmark_offset < i.waiting_for_dmark <;>
      cases ht : i.timeout <;>
        simp [h1, h2, ht]

/-- Claim C2: the durable watermark is monotone and bounded by the
allocation frontier.  From any state satisfying the state invariant
(in particular the primed initial state), every reachable state still
satisfies it, `dur_lsn_offset()` never decreased along the way and is
at most `cur_lsn_offset()`; and any next step — in particular a daemon
publish of `_durable_lsn_offset := new_offset` — satisfies
`old ≤ new ≤ oldest live lsn_offset ≤ cur_lsn_offset()`.  The `flush`
step carries the segment-geometry contract of the external segment
manager (red zone, successor-segment installation) as hypotheses. -/
theorem durable_lsn_offset_monotone_bounded (s0 s : LogState)
    (h0 : LogInv s0) (hr : Relation.ReflTransGen log_step s0 s) :
    (LogInv s ∧ s0.durable ≤ s.durable ∧ s.durable ≤ s.cur) ∧
      ∀ s', log_step s s' →
        s.durable ≤ s'.durable ∧
          s'.durable ≤ oldest_live s.blocks s.cur ∧
          oldest_live s.blocks s.cur ≤ s.cur := by
  obtain ⟨hI, hmono⟩ := log_reach s0 s h0 hr
  exact ⟨⟨hI, hmono, hI.2.2.2.2.1⟩,
    fun s' hst => log_step_publish_bounds s s' hst hI⟩

theorem durable_lsn_offset_monotone_bounded_witness :
    (LogInv initLogState ∧
      Relation.ReflTransGen log_step initLogState initLogState) ∧
      (initLogState.durable ≤ initLogState.durable ∧
        initLogState.durable ≤ initLogState.cur) :=
  ⟨⟨by simp [LogInv, initLogState, LogState.cur, curOf],
    Relation.ReflTransGen.refl⟩,
   ⟨(durable_lsn_offset_monotone_bounded initLogState initLogState
       (by simp [LogInv, initLogState, LogState.cur, curOf])
       Relation.ReflTransGen.refl).1.2.1,
    (durable_lsn_offset_monotone_bounded initLogState initLogState
       (by simp [LogInv, initLogState, LogState.cur, curOf])
       Relation.ReflTransGen.refl).1.2.2⟩⟩

/-- Claim C3: the `push_callback` step of `allocate` assigns the new
node's range from its immediate predecessor: the pushed node `x` has
`x.lsn_offset = prev.next_lsn_offset` and
`x.next_lsn_offset = x.lsn_offset + log_block::size(nrec,
payload_bytes)` (the `nbytes` computed at line 216), so consecutive
allocations are contiguous: pushing preserves the gapless chain
`b.next_lsn_offset = a.lsn_offset` between consecutive nodes. -/
theorem push_callback_assigns_contiguous_range (env : AllocEnv)
    (nrec payload_bytes : Nat) (blocks : List list_node)
    (prev : list_node) (rest : List list_node) (h : blocks = prev :: rest) :
    push_node blocks (env.blockSize nrec payload_bytes) =
      { lsn_offset := prev.next_lsn_offset,
        next_lsn_offset :=
          prev.next_lsn_offset + env.blockSize nrec payload_bytes,
        dead := false } :: blocks ∧
    (List.Chain' (fun a b => b.next_lsn_offset = a.lsn_offset) blocks →
      List.Chain' (fun a b => b.next_lsn_offset = a.lsn_offset)
        (push_node blocks (env.blockSize nrec payload_bytes))) := by
  subst h
  refine ⟨rfl, ?_⟩
  intro hc
  exact List.chain'_cons.mpr ⟨rfl, hc⟩

theorem push_callback_assigns_contiguous_range_witness :
    (stEx.blocks =
      ({ lsn_offset := 0, next_lsn_offset := 0, dead := true } : list_node)
        :: []) ∧
    (push_node stEx.blocks (envEx.blockSize 1 16) =
      { lsn_offset := 0, next_lsn_offset := 0 + envEx.blockSize 1 16,
        dead := false } :: stEx.blocks) ∧
    List.Chain' (fun a b => b.next_lsn_offset = a.lsn_offset)
      (push_node stEx.blocks (envEx.blockSize 1 16)) :=
  ⟨rfl,
   (push_callback_assigns_contiguous_range envEx 1 16 stEx.blocks _ _ rfl).1,
   (push_callback_assigns_contiguous_range envEx 1 16 stEx.blocks _ _
      rfl).2 (by simp [stEx])⟩

/-- Claim C6: for every allocation whose block holds a skip record in
slot `nrec`, `discard(x)` produces a block whose slot 0 is a copy of
the old slot `nrec` with `payload_end` zeroed, whose `nrec` is 0 and
whose `checksum` is the full checksum recomputed over the rewritten
block, and then hands the allocation to `release`. -/
theorem discard_produces_empty_skip_block
    (fc : LSN → Nat → (Nat → log_record) → Nat) (st : AllocState)
    (x : log_allocation)
    (_hskip : (x.block.records x.block.nrec).rtype = rec_type.LOG_SKIP) :
    (sm_discard fc st x).2.block.records 0 =
      { x.block.records x.block.nrec with payload_end := 0 } ∧
    (sm_discard fc st x).2.block.nrec = 0 ∧
    (sm_discard fc st x).2.block.checksum =
      fc (sm_discard fc st x).2.block.lsn (sm_discard fc st x).2.block.nrec
        (sm_discard fc st x).2.block.records ∧
    (sm_discard fc st x).1 = sm_release st (sm_discard fc st x).2 :=
  ⟨rfl, rfl, rfl, rfl⟩

theorem discard_produces_empty_skip_block_witness :
    ((xEx.block.records xEx.block.nrec).rtype = rec_type.LOG_SKIP) ∧
    ((sm_discard envEx.full_checksum stEx xEx).2.block.records 0 =
      { xEx.block.records xEx.block.nrec with payload_end := 0 } ∧
     (sm_discard envEx.full_checksum stEx xEx).2.block.nrec = 0 ∧
     (sm_discard envEx.full_checksum stEx xEx).2.block.checksum =
       envEx.full_checksum (sm_discard envEx.full_checksum stEx xEx).2.block.lsn
         (sm_discard envEx.full_checksum stEx xEx).2.block.nrec
         (sm_discard envEx.full_checksum stEx xEx).2.block.records ∧
     (sm_discard envEx.full_checksum stEx xEx).1 =
       sm_release stEx (sm_discard envEx.full_checksum stEx xEx).2) :=
  ⟨rfl, discard_produces_empty_skip_block envEx.full_checksum stEx xEx rfl⟩

/-- Claim C10: `discard(x)` modifies only record slot 0, the `nrec`
field, and the `checksum` field of the block: the header's `lsn`
field, every record slot other than slot 0, and the allocation's
`lsn_offset` / `next_lsn_offset` are unchanged, so the discarded block
still occupies exactly its originally assigned LSN range. -/
theorem discard_frame_preserves_range
    (fc : LSN → Nat → (Nat → log_record) → Nat) (st : AllocState)
    (x : log_allocation) :
    (sm_discard fc st x).2.lsn_offset = x.lsn_offset ∧
    (sm_discard fc st x).2.next_lsn_offset = x.next_lsn_offset ∧
    (sm_discard fc st x).2.block.lsn = x.block.lsn ∧
    ∀ i, i ≠ 0 → (sm_discard fc st x).2.block.records i = x.block.records i := by
  refine ⟨rfl, rfl, rfl, ?_⟩
  intro i hi
  simp [sm_discard, discard_block, hi]

theorem discard_frame_preserves_range_witness :
    (sm_discard envEx.full_checksum stEx xEx).2.lsn_offset = xEx.lsn_offset ∧
    (sm_discard envEx.full_checksum stEx xEx).2.next_lsn_offset =
      xEx.next_lsn_offset ∧
    (sm_discard envEx.full_checksum stEx xEx).2.block.lsn = xEx.block.lsn ∧
    ((1 : Nat) ≠ 0 ∧
      (sm_discard envEx.full_checksum stEx xEx).2.block.records 1 =
        xEx.block.records 1) :=
  ⟨(discard_frame_preserves_range envEx.full_checksum stEx xEx).1,
   (discard_frame_preserves_range envEx.full_checksum stEx xEx).2.1,
   (discard_frame_preserves_range envEx.full_checksum stEx xEx).2.2.1,
   by decide,
   (discard_frame_preserves_range envEx.full_checksum stEx xEx).2.2.2 1
     (by decide)⟩

/-- Claim C4: `allocate` never returns an error value.  The embedded
outcome type has no error constructor: every run either terminates the
process (`died`: the `DIE_IF` when `push_callback` fails after
shutdown, or the `normal_return` guard), fails to terminate within the
given fuel (`stuck`), or returns an allocation whose `block` field is
populated — header `lsn` stamped with the node's offset, `nrec` set to
the request's `nrec`, and a skip record written in the trailing slot
`records[nrec]`. -/
theorem allocate_never_errors_populated (env : AllocEnv)
    (nrec payload_bytes bufFuel fuel : Nat) (st : AllocState) (t : Nat) :
    outcome_populated nrec payload_bytes
      (allocate_loop env nrec payload_bytes bufFuel fuel st t) := by
  induction fuel generalizing st t with
  | zero => simp [allocate_loop, outcome_populated]
  | succ n ih =>
    cases hA : allocate_attempt env nrec payload_bytes bufFuel st t with
    | dead_zone st2 t2 =>
      simpa [allocate_loop, hA] using ih st2 t2
    | filler x st2 t2 r =>
      simpa [allocate_loop, hA] using ih st2 t2
    | success x st2 t2 =>
      have hp := allocate_attempt_success_populated env nrec payload_bytes
        bufFuel st t x st2 t2 hA
      simpa [allocate_loop, hA, outcome_populated] using hp
    | shutdown_die => simp [allocate_loop, hA, outcome_populated]
    | buf_stuck => simp [allocate_loop, hA, outcome_populated]

/-- Claim C5: when segment assignment returns a segment with
`full_size = false`, the attempt downgrades the request to an empty
filler block of exactly `sid.end_offset - x.lsn_offset` bytes (the
reserved byte count of the returned `filler` outcome) with `nrec = 0`
and zero skip payload — the written contents are
`filler_written_block` — then calls `discard(x)` on it (the returned
allocation and state are exactly `sm_discard` of the populated filler)
and retries the allocation from step 1 (the loop continues on the
post-discard state). -/
theorem allocate_short_fit_discard_retry (env : AllocEnv)
    (nrec payload_bytes bufFuel : Nat) (st : AllocState) (t fuel : Nat)
    (sid : segment_id) (t2 : Nat)
    (hsd : st.shutdown = false)
    (hsid : (env.assign_segment (curOf st.blocks)
      (curOf st.blocks + env.blockSize nrec payload_bytes)).sid = some sid)
    (hfull : (env.assign_segment (curOf st.blocks)
      (curOf st.blocks + env.blockSize nrec payload_bytes)).full_size = false)
    (hgrab : grab_buffer bufFuel env.bufAvail t = some t2) :
    allocate_attempt env nrec payload_bytes bufFuel st t =
      attempt_result.filler
        (sm_discard env.full_checksum
          { blocks := push_node st.blocks (env.blockSize nrec payload_bytes),
            shutdown := st.shutdown }
          (filler_alloc env nrec payload_bytes st sid)).2
        (sm_discard env.full_checksum
          { blocks := push_node st.blocks (env.blockSize nrec payload_bytes),
            shutdown := st.shutdown }
          (filler_alloc env nrec payload_bytes st sid)).1
        (t2 + 1) (sid.end_offset - curOf st.blocks) ∧
    allocate_loop env nrec payload_bytes bufFuel (fuel + 1) st t =
      allocate_loop env nrec payload_bytes bufFuel fuel
        (sm_discard env.full_checksum
          { blocks := push_node st.blocks (env.blockSize nrec payload_bytes),
            shutdown := st.shutdown }
          (filler_alloc env nrec payload_bytes st sid)).1 (t2 + 1) := by
  have hA : allocate_attempt env nrec payload_bytes bufFuel st t =
      attempt_result.filler
        (sm_discard env.full_checksum
          { blocks := push_node st.blocks (env.blockSize nrec payload_bytes),
            shutdown := st.shutdown }
          (filler_alloc env nrec payload_bytes st sid)).2
        (sm_discard env.full_checksum
          { blocks := push_node st.blocks (env.blockSize nrec payload_bytes),
            shutdown := st.shutdown }
          (filler_alloc env nrec payload_bytes st sid)).1
        (t2 + 1) (sid.end_offset - curOf st.blocks) := by
    simp [allocate_attempt, hsd, hsid, hfull, hgrab, filler_alloc,
      filler_written_block, segment_id.make_lsn]
  refine ⟨hA, ?_⟩
  simp [allocate_loop, hA]

theorem allocate_short_fit_discard_retry_witness :
    (stEx.shutdown = false ∧
      (envShort.assign_segment (curOf stEx.blocks)
        (curOf stEx.blocks + envShort.blockSize 1 16)).sid = some sidShort ∧
      (envShort.assign_segment (curOf stEx.blocks)
        (curOf stEx.blocks + envShort.blockSize 1 16)).full_size = false ∧
      grab_buffer 1 envShort.bufAvail 0 = some 0) ∧
    (allocate_attempt envShort 1 16 1 stEx 0 =
      attempt_result.filler
        (sm_discard envShort.full_checksum
          { blocks := push_node stEx.blocks (envShort.blockSize 1 16),
            shutdown := stEx.shutdown }
          (filler_alloc envShort 1 16 stEx sidShort)).2
        (sm_discard envShort.full_checksum
          { blocks := push_node stEx.blocks (envShort.blockSize 1 16),
            shutdown := stEx.shutdown }
          (filler_alloc envShort 1 16 stEx sidShort)).1
        (0 + 1) (sidShort.end_offset - curOf stEx.blocks) ∧
     allocate_loop envShort 1 16 1 (0 + 1) stEx 0 =
      allocate_loop envShort 1 16 1 0
        (sm_discard envShort.full_checksum
          { blocks := push_node stEx.blocks (envShort.blockSize 1 16),
            shutdown := stEx.shutdown }
          (filler_alloc envShort 1 16 stEx sidShort)).1 (0 + 1)) :=
  ⟨⟨rfl, rfl, rfl, rfl⟩,
   allocate_short_fit_discard_retry envShort 1 16 1 stEx 0 0 sidShort 0
     rfl rfl rfl rfl⟩
